import Mathlib

/-!
Verification of the git-timestamps snapshot/restore tool (`src/helper/timestamps.py`,
`src/helper/rekursion.py`, `src/main.py`) against its specification.

The embedding models:
* timestamps as integer microseconds since the Unix epoch; the formatted
  timestamp string `"%Y-%m-%d %H:%M:%S.%f%z"` is modelled field-by-field by the
  structure `TimeStr` (the rendering of the fields into text is fixed-width and
  injective, so the fields carry exactly the information of the string);
* the local timezone used by `datetime.fromtimestamp(...).astimezone(tz=None)`
  as an explicit offset-in-minutes parameter `off`;
* the filesystem seen by `os.stat`/`open`/`os.path.exists` as explicit oracles,
  so that the race windows the code handles (file vanishing between walk and
  fingerprint, I/O fault during read) are expressible.

Python's `//` and `%` on non-negative divisors agree with Lean's `Int` `/` and
`%` (Euclidean division), which is what all definitions below use.
-/

/-! ## Calendar arithmetic

`datetime.fromtimestamp(t, tz=utc)` converts an epoch instant to a proleptic
Gregorian civil date, and `datetime.timestamp()` inverts that conversion.  The
two functions below are a standard correct day-number/civil-date conversion
pair (successive capped divisions: era of 146097 days, century, quadrennium,
year, then the March-based month formula); they are validated against Python's
`datetime` and serve as the model of its calendar arithmetic. -/

/-- Civil date `(year, month, day)` of the day `z` days after 1970-01-01
(proleptic Gregorian, as used by Python `datetime`). -/
def civil_from_days (z : Int) : Int × Int × Int :=
  let zp := z + 719468
  let era := zp / 146097
  let doe := zp % 146097
  let c := doe / 36524
  let cp := if c = 4 then 3 else c
  let dcent := doe - 36524 * cp
  let q := dcent / 1461
  let dquad := dcent - 1461 * q
  let y := dquad / 365
  let yp := if y = 4 then 3 else y
  let doy := dquad - 365 * yp
  let yoe := 100 * cp + 4 * q + yp
  let year := yoe + 400 * era
  let mp := (5 * doy + 2) / 153
  let d := doy - (153 * mp + 2) / 5 + 1
  let m := if mp < 10 then mp + 3 else mp - 9
  (if m ≤ 2 then year + 1 else year, m, d)

/-- Day number (days since 1970-01-01) of a civil date (proleptic Gregorian,
as used by Python `datetime`). -/
def days_from_civil (y m d : Int) : Int :=
  let yp := if m ≤ 2 then y - 1 else y
  let era := yp / 400
  let yoe := yp - 400 * era
  let mp := if m > 2 then m - 3 else m + 9
  let doy := (153 * mp + 2) / 5 + d - 1
  let doe := 365 * yoe + yoe / 4 - yoe / 100 + doy
  era * 146097 + doe - 719468

/-- The two calendar conversions are mutually inverse on day numbers. -/
theorem days_civil_roundtrip (z : Int) :
    days_from_civil (civil_from_days z).1 (civil_from_days z).2.1 (civil_from_days z).2.2 = z := by
  simp only [civil_from_days, days_from_civil]
  generalize hera : (z + 719468) / 146097 = era
  generalize hdoe : (z + 719468) % 146097 = doe
  generalize hcp : (if doe / 36524 = 4 then 3 else doe / 36524) = cp
  generalize hdcent : doe - 36524 * cp = dcent
  generalize hq : dcent / 1461 = q
  generalize hdquad : dcent - 1461 * q = dquad
  generalize hyp : (if dquad / 365 = 4 then 3 else dquad / 365) = yp
  generalize hdoy : dquad - 365 * yp = doy
  generalize hyoe : 100 * cp + 4 * q + yp = yoe
  generalize hyear : yoe + 400 * era = year
  generalize hmp : (5 * doy + 2) / 153 = mp
  generalize hd : doy - (153 * mp + 2) / 5 + 1 = d
  generalize hm : (if mp < 10 then mp + 3 else mp - 9) = m
  have hcp' : (doe / 36524 = 4 ∧ cp = 3) ∨ (doe / 36524 ≠ 4 ∧ cp = doe / 36524) := by
    by_cases h : doe / 36524 = 4
    · rw [if_pos h] at hcp; exact Or.inl ⟨h, hcp.symm⟩
    · rw [if_neg h] at hcp; exact Or.inr ⟨h, hcp.symm⟩
  have hyp' : (dquad / 365 = 4 ∧ yp = 3) ∨ (dquad / 365 ≠ 4 ∧ yp = dquad / 365) := by
    by_cases h : dquad / 365 = 4
    · rw [if_pos h] at hyp; exact Or.inl ⟨h, hyp.symm⟩
    · rw [if_neg h] at hyp; exact Or.inr ⟨h, hyp.symm⟩
  have hdoeb : 0 ≤ doe ∧ doe < 146097 := by omega
  have hcpb : 0 ≤ cp ∧ cp ≤ 3 := by omega
  have hdcb : 0 ≤ dcent ∧ dcent ≤ 36524 := by omega
  have hqb : 0 ≤ q ∧ q ≤ 24 := by omega
  have hdqb : 0 ≤ dquad ∧ dquad ≤ 1460 := by omega
  have hypb : 0 ≤ yp ∧ yp ≤ 3 := by omega
  have hdoyb : 0 ≤ doy ∧ doy ≤ 365 := by omega
  have hmpb : 0 ≤ mp ∧ mp ≤ 11 := by omega
  have hmb : 1 ≤ m ∧ m ≤ 12 := by omega
  have h1 : (if m ≤ 2 then (if m ≤ 2 then year + 1 else year) - 1
      else (if m ≤ 2 then year + 1 else year)) = year := by
    by_cases h : m ≤ 2 <;> simp [h]
  rw [h1]
  have h2 : (if m > 2 then m - 3 else m + 9) = mp := by
    by_cases h : mp < 10
    · rw [if_pos (by omega)]; omega
    · rw [if_neg (by omega)]; omega
  rw [h2]
  have h3 : year / 400 = era := by omega
  rw [h3]
  have h4 : year - 400 * era = yoe := by omega
  rw [h4]
  have h5 : yoe / 4 = 25 * cp + q := by omega
  have h6 : yoe / 100 = cp := by omega
  rw [h5, h6]
  omega

/-! ## Timestamp formatting (`format_time` / `scan_time`)

Source (`src/helper/timestamps.py`):
```
def format_time( time: float) -> str:
    datetime_object = datetime.fromtimestamp(time, tz=timezone.utc).astimezone(tz=None)
    return datetime_object.strftime("%Y-%m-%d %H:%M:%S.%f%z")

def scan_time( timestamp: str ) -> float:
    datetime_object = datetime.strptime(timestamp, "%Y-%m-%d %H:%M:%S.%f%z")
    return datetime_object.timestamp()
```
The epoch value is modelled in integer microseconds (the resolution of the
`%f` field; `datetime.fromtimestamp` quantizes the float input to whole
microseconds, so a float epoch and its microsecond quantization format
identically).  `astimezone(tz=None)` attaches the OS local timezone; its
offset at the formatted instant is the explicit parameter `off` (in minutes,
whole minutes being what `%z` renders as `±HHMM`). -/

/-- The information content of a `"%Y-%m-%d %H:%M:%S.%f%z"` string: each field
of the structure is one directive of the format (all rendered fixed-width, so
string equality coincides with field-wise equality). -/
structure TimeStr where
  year : Int
  month : Int
  day : Int
  hour : Int
  minute : Int
  second : Int
  micro : Int
  offMin : Int
deriving DecidableEq, Repr

/-- Model of `format_time`: convert epoch microseconds `t` to the civil fields
rendered by `strftime("%Y-%m-%d %H:%M:%S.%f%z")` in a local timezone whose
offset is `off` minutes. -/
def format_time (off : Int) (t : Int) : TimeStr :=
  let loc := t + off * 60000000
  let days := loc / 86400000000
  let rem := loc % 86400000000
  let ymd := civil_from_days days
  { year := ymd.1
    month := ymd.2.1
    day := ymd.2.2
    hour := rem / 3600000000
    minute := rem % 3600000000 / 60000000
    second := rem % 60000000 / 1000000
    micro := rem % 1000000
    offMin := off }

/-- Model of `scan_time`: `strptime` reconstructs the aware datetime from the
fields (including the `%z` offset) and `.timestamp()` returns its epoch
value. -/
def scan_time (ts : TimeStr) : Int :=
  days_from_civil ts.year ts.month ts.day * 86400000000 +
    ts.hour * 3600000000 + ts.minute * 60000000 + ts.second * 1000000 + ts.micro -
    ts.offMin * 60000000

/-- C9: for every numeric epoch timestamp value, formatting it with
`format_time` and parsing the result back with `scan_time` yields the original
value — exactly, in the integer-microsecond model, hence in particular within
the 1 microsecond tolerance the claim allows for float quantization.
The local-timezone offset `off` printed by `%z` is arbitrary. -/
theorem format_scan_time_roundtrip (off t : Int) : scan_time (format_time off t) = t := by
  simp only [format_time, scan_time]
  rw [days_civil_roundtrip]
  omega

/-! ## File records and the metadata mapping

`get_file_metadata` produces, per file, the dictionary
`{"md5", "path", "name", "size", "attr", "modified", "created", "access"}`;
a snapshot's `"metadata"` object maps relative-path keys to such records.
Python `dict`s are modelled as association lists in insertion order (keys of a
`dict` are unique; lookups return the binding of the key). -/

/-- One per-file record of a snapshot (the value type of the `metadata`
mapping).  `attr` is the opaque string produced by `get_file_arributes`
(platform attribute bits), treated as unstructured data. -/
structure FileRecord where
  md5 : String
  path : String
  name : String
  size : Nat
  attr : String
  modified : TimeStr
  created : TimeStr
  access : TimeStr
deriving DecidableEq, Repr

/-- The `metadata` mapping of a snapshot: relative-path key to record, in
insertion order. -/
abbrev Metadata : Type := List (String × FileRecord)

/-- Python `key in d` / `d[key]` on a dict, on the association-list model. -/
def dictLookup (key : String) : Metadata → Option FileRecord
  | [] => none
  | (k, v) :: rest => if key = k then some v else dictLookup key rest

/-- Python `d[key] = v` (insert-or-overwrite) on the association-list model:
overwriting keeps the key's original position, a new key is appended. -/
def dictInsert (d : Metadata) (key : String) (v : FileRecord) : Metadata :=
  if (d.map Prod.fst).contains key then
    d.map (fun kv => if kv.1 = key then (key, v) else kv)
  else
    d ++ [(key, v)]

/-! ## The reconciler (`update_metadata`)

Source (`src/helper/timestamps.py`):
```
def update_metadata(existing_metadata, new_metadata):
    updated = {}
    for key, data in new_metadata.items():
        if key in existing_metadata:
            if existing_metadata[key]["md5"] == data["md5"]:
                updated[key] = existing_metadata[key]
            else:
                updated[key] = data
        else:
            updated[key] = data
    return updated
```
Iterating a dict's items and assigning each key once is a map over the
association list. -/

/-- Model of `update_metadata`. -/
def update_metadata (existing_metadata new_metadata : Metadata) : Metadata :=
  new_metadata.map (fun kd =>
    match dictLookup kd.1 existing_metadata with
    | some old => if old.md5 = kd.2.md5 then (kd.1, old) else kd
    | none => kd)

/-- Lookup in the reconciled mapping, as a function of the two input lookups:
present exactly on the new mapping's keys, old record kept when the hashes
agree, new record otherwise. -/
theorem dictLookup_update_metadata (old new : Metadata) (key : String) :
    dictLookup key (update_metadata old new) =
      (dictLookup key new).map (fun nr =>
        match dictLookup key old with
        | some orec => if orec.md5 = nr.md5 then orec else nr
        | none => nr) := by
  induction new with
  | nil => rfl
  | cons kd rest ih =>
    obtain ⟨k, v⟩ := kd
    simp only [update_metadata, List.map_cons, dictLookup]
    by_cases hk : key = k
    · subst hk
      cases hold : dictLookup key old with
      | none => simp [dictLookup, hold]
      | some orec =>
        by_cases hm : orec.md5 = v.md5 <;> simp [dictLookup, hold, hm]
    · cases hlk : dictLookup k old with
      | none => simpa [dictLookup, hk] using ih
      | some orec =>
        by_cases hm : orec.md5 = v.md5 <;> simpa [dictLookup, hk, hm] using ih

/-- C1: reconciliation keeps the old record for every key of the new mapping
that exists in the old mapping with equal `md5` content hash, takes the new
record for a new key or a differing hash, and drops every key that is absent
from the new mapping (even if the old mapping has it). -/
theorem update_metadata_reconciles (old new : Metadata) (key : String) :
    (∀ nr, dictLookup key new = some nr →
      (∀ orec, dictLookup key old = some orec → orec.md5 = nr.md5 →
        dictLookup key (update_metadata old new) = some orec) ∧
      (dictLookup key old = none →
        dictLookup key (update_metadata old new) = some nr) ∧
      (∀ orec, dictLookup key old = some orec → orec.md5 ≠ nr.md5 →
        dictLookup key (update_metadata old new) = some nr)) ∧
    (dictLookup key new = none → dictLookup key (update_metadata old new) = none) := by
  constructor
  · intro nr hnew
    refine ⟨fun orec hold hmd5 => ?_, fun hold => ?_, fun orec hold hmd5 => ?_⟩
    · simp [dictLookup_update_metadata, hnew, hold, hmd5]
    · simp [dictLookup_update_metadata, hnew, hold]
    · simp [dictLookup_update_metadata, hnew, hold, hmd5]
  · intro hnew
    simp [dictLookup_update_metadata, hnew]

/-! ## Glob matching (`fnmatch.fnmatch`)

`match_not_exclude` matches an entry's own name against shell-glob patterns
via Python's `fnmatch.fnmatch`.  The model implements the documented glob
semantics: `*` matches any sequence, `?` any single character, `[seq]` any
character of the set, `[!seq]` any character not in the set (with `a-z`
ranges, a `]` first in the set being literal, and an unterminated `[` being a
literal character).  `os.path.normcase` is modelled as the identity (its POSIX
behavior).  The non-structural recursions carry an explicit fuel argument that
is always sufficient (bounded by the pattern/name lengths), keeping every
definition kernel-executable. -/

/-- One member of a glob character class: a single character or a range. -/
inductive ClassItem where
  | single (c : Char)
  | range (lo hi : Char)
deriving DecidableEq, Repr

/-- Scan a character-class body up to the closing `]`; `none` if unterminated. -/
def parseClassBody : List Char → Option (List Char × List Char)
  | [] => none
  | c :: rest =>
    if c = ']' then some ([], rest)
    else
      match parseClassBody rest with
      | none => none
      | some (s, r) => some (c :: s, r)

/-- Class scan after the optional `!`: a `]` in first position is a literal
member of the set. -/
def parseClassAfterBang : List Char → Option (List Char × List Char)
  | ']' :: rest =>
    (match parseClassBody rest with
     | none => none
     | some (s, r) => some (']' :: s, r))
  | q => parseClassBody q

/-- Parse the part of a pattern following `[`: negation flag, raw class body,
rest of the pattern. -/
def parseClass : List Char → Option (Bool × List Char × List Char)
  | '!' :: q =>
    (match parseClassAfterBang q with
     | none => none
     | some (s, r) => some (true, s, r))
  | q =>
    (match parseClassAfterBang q with
     | none => none
     | some (s, r) => some (false, s, r))

/-- Interpret a raw class body: `a-z` is a range, anything else is literal. -/
def classItems : List Char → List ClassItem
  | [] => []
  | a :: '-' :: b :: rest => ClassItem.range a b :: classItems rest
  | a :: rest => ClassItem.single a :: classItems rest

/-- Membership of a character in a class. -/
def classMatch (items : List ClassItem) (c : Char) : Bool :=
  items.any fun item =>
    match item with
    | .single d => c = d
    | .range lo hi => lo ≤ c && c ≤ hi

/-- A compiled glob token (the tokens `fnmatch.translate` emits). -/
inductive GlobTok where
  | star
  | qmark
  | lit (c : Char)
  | cls (neg : Bool) (items : List ClassItem)
deriving DecidableEq, Repr

/-- Tokenize a glob pattern.  `fuel` bounds the recursion (the pattern length
always suffices, each step consuming at least one character). -/
def compileGlob : Nat → List Char → List GlobTok
  | 0, _ => []
  | _ + 1, [] => []
  | fuel + 1, '*' :: p => GlobTok.star :: compileGlob fuel p
  | fuel + 1, '?' :: p => GlobTok.qmark :: compileGlob fuel p
  | fuel + 1, '[' :: p =>
    (match parseClass p with
     | none => GlobTok.lit '[' :: compileGlob fuel p
     | some (neg, stuff, rest) => GlobTok.cls neg (classItems stuff) :: compileGlob fuel rest)
  | fuel + 1, c :: p => GlobTok.lit c :: compileGlob fuel p

/-- Match a token list against a name.  `fuel` bounds the recursion (the sum
of the lengths always suffices). -/
def tokMatch : Nat → List GlobTok → List Char → Bool
  | 0, _, _ => false
  | _ + 1, [], s => s.isEmpty
  | fuel + 1, .star :: p, s =>
    tokMatch fuel p s ||
      (match s with
       | [] => false
       | _ :: rest => tokMatch fuel (GlobTok.star :: p) rest)
  | fuel + 1, .qmark :: p, s =>
    (match s with
     | [] => false
     | _ :: rest => tokMatch fuel p rest)
  | fuel + 1, .lit c :: p, s =>
    (match s with
     | [] => false
     | d :: rest => c = d && tokMatch fuel p rest)
  | fuel + 1, .cls neg items :: p, s =>
    (match s with
     | [] => false
     | d :: rest => Bool.xor (classMatch items d) neg && tokMatch fuel p rest)

/-- Model of `fnmatch.fnmatch(name, pat)`. -/
def fnmatch (name pat : String) : Bool :=
  let toks := compileGlob pat.toList.length pat.toList
  tokMatch (toks.length + name.toList.length + 1) toks name.toList

/-! ## The tree walker (`src/helper/rekursion.py`)

Source:
```
def match_not_exclude( name, excludes ):
    if excludes is None:
        return True
    for exclude in excludes:
        if fnmatch.fnmatch(name, exclude):
            return False
    return True
```
`get_filepaths_ancor` walks the anchor directory recursively, classifying
entries into files and directories, filtering each by `match_not_exclude` on
the entry's own name, accumulating relative forward-slash paths into shared
`files`/`folders` lists, and recording a path in `errors` when a directory
cannot be iterated (permission error or symlink loop), skipping that entry
and continuing. -/

/-- The exclusion rule set `{"folder": ..., "files": ...}` (either entry may
be `None`). -/
structure Ignore where
  folder : Option (List String)
  files : Option (List String)
deriving DecidableEq, Repr

/-- Model of `match_not_exclude`. -/
def match_not_exclude (name : String) (excludes : Option (List String)) : Bool :=
  match excludes with
  | none => true
  | some pats => !(pats.any fun pat => fnmatch name pat)

/-- A directory entry as the walk sees it: a plain file, or a directory with
its children; `accessible = false` marks a directory whose `iterdir` raises
(permission error / symlink), which the walk records in `errors` and skips. -/
inductive FSEntry where
  | file (name : String)
  | dir (name : String) (accessible : Bool) (children : List FSEntry)
deriving Repr

/-- The relative name the walk builds for an entry (`rel_path + "/" + name`,
bare name at the top level). -/
def entryName (rel_path name : String) : String :=
  if rel_path = "" then name else rel_path ++ "/" ++ name

/-- The absolute-ish path the walk records in `errors`
(`ancor_path / rel_path`, as posix). -/
def pathAt (ancor rel_path : String) : String :=
  if rel_path = "" then ancor else ancor ++ "/" ++ rel_path

/-- A walk result: `(files, folders, errors)`, all relative to the anchor
except `errors` (which records `ancor / rel`). -/
abbrev WalkResult : Type := List String × List String × List String

/-- The recursive body of `get_filepaths_ancor`: fold over the entries of one
directory, recursing into non-excluded accessible subdirectories.  `fuel`
bounds the recursion depth (any value at least the tree depth gives the run
of the source; the claims hold for every fuel). -/
def walk_fuel (exclude : Ignore) (ancor : String) : Nat → String → List FSEntry → WalkResult
  | 0, _, _ => ([], [], [])
  | fuel + 1, rel_path, entries =>
    entries.foldl
      (fun acc e =>
        match e with
        | .file n =>
          if match_not_exclude n exclude.files then
            (acc.1 ++ [entryName rel_path n], acc.2.1, acc.2.2)
          else acc
        | .dir n accessible cs =>
          if match_not_exclude n exclude.folder then
            let name := entryName rel_path n
            let sub :=
              if accessible then walk_fuel exclude ancor fuel name cs
              else ([], [], [pathAt ancor name])
            (acc.1 ++ sub.1, acc.2.1 ++ name :: sub.2.1, acc.2.2 ++ sub.2.2)
          else acc)
      ([], [], [])

/-- Model of `get_filepaths_ancor`: start the walk at the anchor with the
empty relative path (an unreadable anchor directory itself yields one error
and nothing else). -/
def get_filepaths_ancor (ancor_path : String) (exclude : Ignore) (rootReadable : Bool)
    (tree : List FSEntry) (depth : Nat) : WalkResult :=
  if rootReadable then walk_fuel exclude ancor_path depth "" tree
  else ([], [], [ancor_path])

/-- The walk step of one entry list never descends into an excluded directory:
removing it from its sibling list does not change the walk result. -/
theorem walk_fuel_excluded_dir (exclude : Ignore) (ancor : String) (fuel : Nat)
    (rel_path : String) (pre post : List FSEntry) (n : String) (accessible : Bool)
    (cs : List FSEntry) (hm : match_not_exclude n exclude.folder = false) :
    walk_fuel exclude ancor fuel rel_path (pre ++ FSEntry.dir n accessible cs :: post) =
      walk_fuel exclude ancor fuel rel_path (pre ++ post) := by
  cases fuel with
  | zero => rfl
  | succ fuel =>
    simp only [walk_fuel, List.foldl_append, List.foldl_cons]
    rw [hm]
    simp

/-- C8: a directory whose own name matches a folder-exclusion glob pattern is
pruned: wherever it occurs in an entry list (hence at any nesting depth of
the walk, which processes every directory level through this same function),
the walk result is the one of the list without it, so none of the files under
it appear; the match is applied to the entry's own name `n` alone, for every
relative path `rel_path` at which the directory sits. -/
theorem get_filepaths_excluded_dir_pruned (exclude : Ignore) (ancor : String) (fuel : Nat)
    (rel_path : String) (pre post : List FSEntry) (n : String) (accessible : Bool)
    (cs : List FSEntry) (pats : List String) (hpats : exclude.folder = some pats)
    (pat : String) (hmem : pat ∈ pats) (hmatch : fnmatch n pat = true) :
    walk_fuel exclude ancor fuel rel_path (pre ++ FSEntry.dir n accessible cs :: post) =
      walk_fuel exclude ancor fuel rel_path (pre ++ post) := by
  apply walk_fuel_excluded_dir
  simp only [match_not_exclude, hpats, Bool.not_eq_false']
  exact List.any_eq_true.mpr ⟨pat, hmem, hmatch⟩

/-- Witness for C8: with the exclusion set `{folder: [".git"]}`, a `.git`
directory nested inside `sub` is pruned, and the concrete walk of the tree
containing it equals the walk without it, which lists only `sub/b.py`. -/
theorem get_filepaths_excluded_dir_pruned_witness :
    walk_fuel ⟨some [".git"], none⟩ "G:/proj" 3 "sub"
        [FSEntry.dir ".git" true [FSEntry.file "config"], FSEntry.file "b.py"] =
      walk_fuel ⟨some [".git"], none⟩ "G:/proj" 3 "sub" [FSEntry.file "b.py"] ∧
    walk_fuel ⟨some [".git"], none⟩ "G:/proj" 3 "sub" [FSEntry.file "b.py"] =
      (["sub/b.py"], [], []) := by
  constructor
  · exact get_filepaths_excluded_dir_pruned ⟨some [".git"], none⟩ "G:/proj" 3 "sub"
      [] [FSEntry.file "b.py"] ".git" true [FSEntry.file "config"] [".git"] rfl
      ".git" (by decide) (by decide)
  · decide

/-! ## Relative-path key derivation (`get_file_metadata`, path part)

Source (`src/helper/timestamps.py`):
```
p1 = str(PurePosixPath(file_path).parent)
p2 = str(PurePosixPath(project_path))
rel_path = p1.split(p2)[-1].lstrip("/")
if rel_path == "":
    key = file_path.name
else:
    key = rel_path + "/" + file_path.name
```
Paths are modelled as their normalized forward-slash strings (which is what
`PurePosixPath` of a path object yields — backslashes are converted to
forward slashes).  Python's `str.split(sep)` with a non-empty separator and
`str.lstrip` are implemented on character lists so every definition is
kernel-executable (`pySplitAux` carries a fuel argument, always sufficient at
the string's length). -/

/-- Whether `p` is a prefix of `s` (character lists). -/
def listPrefix : List Char → List Char → Bool
  | [], _ => true
  | _ :: _, [] => false
  | c :: cs, d :: ds => c = d && listPrefix cs ds

/-- Python `str.split(sep)` for a non-empty `sep`, on character lists:
split at each leftmost non-overlapping occurrence of `sep`. -/
def pySplitAux (sep : List Char) : Nat → List Char → List (List Char)
  | _, [] => [[]]
  | 0, s => [s]
  | fuel + 1, d :: rest =>
    if listPrefix sep (d :: rest) then
      [] :: pySplitAux sep fuel (List.drop (sep.length - 1) rest)
    else
      match pySplitAux sep fuel rest with
      | [] => [[d]]
      | g :: gs => (d :: g) :: gs

/-- Python `s.split(sep)` (non-empty separator; Python raises on an empty
separator, modelled as the whole-string singleton which never arises). -/
def pySplit (s sep : String) : List String :=
  if sep.toList.isEmpty then [s]
  else (pySplitAux sep.toList s.toList.length s.toList).map String.mk

/-- Python `s.lstrip("/")`. -/
def lstripSlash (s : String) : String :=
  String.mk (s.toList.dropWhile fun c => c = '/')

/-- `PurePosixPath(s).parent` for a normalized forward-slash path string:
drop the last component (`"."` when there is no separator, `"/"` below the
root). -/
def posixParent (s : String) : String :=
  let parts := pySplit s "/"
  if parts.length ≤ 1 then "."
  else
    let front := parts.dropLast
    if front.all (fun part => part = "") then "/"
    else String.intercalate "/" front

/-- `PurePosixPath(s).name`: the last path component. -/
def baseName (s : String) : String :=
  (pySplit s "/").getLastD ""

/-- The `rel_path` computed by `get_file_metadata`:
`p1.split(p2)[-1].lstrip("/")` on the parent of the file path. -/
def rel_path_of (file_path project_path : String) : String :=
  let p1 := posixParent file_path
  let p2 := project_path
  lstripSlash ((pySplit p1 p2).getLastD "")

/-- The metadata key computed by `get_file_metadata` for a file. -/
def key_of (file_path project_path : String) : String :=
  let rel_path := rel_path_of file_path project_path
  if rel_path = "" then baseName file_path
  else rel_path ++ "/" ++ baseName file_path

/-- C7, evaluated at the failing input: for the project `Python/_empty` and
the file at relative path `src/Python/_empty/util.py` (the project-path
string recurs inside the path), `str.split` cuts at the last occurrence and
the derived key degenerates to the bare `util.py` instead of the true
relative path — while an ordinary nested file still gets the correct key.
This confirms the spec's flagged latent bug: the claim that the key equals
the relative path for every file under the project root is false on the
code. -/
theorem key_of_substring_recurrence_bug :
    key_of "G:/Python/_empty/src/Python/_empty/util.py" "Python/_empty" = "util.py" ∧
    "util.py" ≠ "src/Python/_empty/util.py" ∧
    key_of "G:/Python/_empty/src/utils/util.py" "Python/_empty" = "src/utils/util.py" := by
  refine ⟨by decide, by decide, by decide⟩

/-! ## The fingerprinter (`calculate_md5`, `get_file_metadata`)

Source:
```
def calculate_md5(file_path):
    hash_md5 = hashlib.md5()
    try:
        with open(file_path, "rb") as f:
            for chunk in iter(lambda: f.read(4096), b""):
                hash_md5.update(chunk)
    except OSError as err:
        Trace.error( f"..." )
        return ""
    return hash_md5.hexdigest()
```
Reading the file's bytes is modelled by its outcome: the hex digest the
chunked md5 computation produces, or an `OSError` during open/read.  The
OS-visible state of one path is a `FsView`: the result of the
`os.path.exists` check, and the stat-level data `get_file_metadata` sees
(`none` when `check_path_exists` fails, i.e. the file vanished between the
two checks). -/

/-- Outcome of opening and reading a file's bytes. -/
inductive ReadOutcome where
  | ok (digest : String)
  | ioError
deriving DecidableEq, Repr

/-- Model of `calculate_md5`: the streamed md5 hex digest, or `""` after the
caught `OSError` (the source logs the error and returns the empty string). -/
def calculate_md5 : ReadOutcome → String
  | .ok digest => digest
  | .ioError => ""

/-- Stat-level data of one on-disk file, in the units of the model
(times in epoch microseconds).  `attr` is the opaque result of
`get_file_arributes`. -/
structure StatData where
  read : ReadOutcome
  size : Nat
  attr : String
  mtime : Int
  ctime : Int
  atime : Int
deriving DecidableEq, Repr

/-- What the OS reports for one path during one pass: the `os.path.exists`
result, and the data behind `check_path_exists`/`os.stat` (`none` when the
file is gone by then). -/
structure FsView where
  existsCheck : Bool
  stat : Option StatData
deriving DecidableEq, Repr

/-- Model of `get_file_metadata`: derive the key (and `rel_path`) from the
path strings, then either report the vanished file (`none`) or build the
record from the stat data. -/
def get_file_metadata (os : String → FsView) (off : Int)
    (file_path project_path : String) : String × Option FileRecord :=
  let rel_path := rel_path_of file_path project_path
  let key := if rel_path = "" then baseName file_path
             else rel_path ++ "/" ++ baseName file_path
  match (os file_path).stat with
  | none => (key, none)
  | some st =>
    (key, some {
      md5 := calculate_md5 st.read
      path := rel_path
      name := baseName file_path
      size := st.size
      attr := st.attr
      modified := format_time off st.mtime
      created := format_time off st.ctime
      access := format_time off (max 0 st.atime) })

/-! ## Scanning (`scan_files`, `read_metadata`) and the snapshot store

`scan_files` fingerprints each walked file and collects the records into the
metadata dict, skipping a file whose metadata is `None` (vanished) — the
`except OSError: continue` in the source likewise only skips the one file.
`read_metadata` walks the project, scans, optionally merges with the stored
snapshot and writes the new document.

The snapshot store itself (`import_json`/`export_json`) lives in
`utils/file.py`, which is not part of src/. -/

/-- Model of `scan_files`. -/
def scan_files (os : String → FsView) (off : Int) (drive project_path : String)
    (files : List String) : Metadata :=
  files.foldl
    (fun metadata file =>
      let file_path := drive ++ "/" ++ project_path ++ "/" ++ file
      match get_file_metadata os off file_path project_path with
      | (_, none) => metadata
      | (key, some data) => dictInsert metadata key data)
    []

/-- The `"scan"` header of a snapshot document. -/
structure ScanInfo where
  date : String
  path : String
  files : Nat
  ignore : Ignore
deriving DecidableEq, Repr

/-- A persisted snapshot document (`.timestamps.json`). -/
structure SnapshotDoc where
  scan : ScanInfo
  metadata : Metadata
deriving DecidableEq, Repr

/-- Modelled from the spec: `import_json` (in `utils/file.py`, not under
src/) loads the snapshot file and is specified to return the parsed document,
to report `Absent` — not an error — when the file does not exist (the normal
first-scan case), and to surface a `ParseError` when the file exists but is
malformed. -/
inductive LoadResult where
  | absent
  | parseError
  | ok (doc : SnapshotDoc)
deriving DecidableEq, Repr

/-- Model of `read_metadata`: walk the project tree (`depth` is the walk's
recursion budget, at least the tree depth in a real run), fingerprint the
files, and unless `reset` is set, merge with the stored snapshot.  The result
is the document handed to `export_json`; `none` models the `ParseError` of a
malformed stored snapshot surfacing (the scan of this project aborts and
nothing is written). -/
def read_metadata (os : String → FsView) (off : Int)
    (drive_path project_path : String) (ignore_list : Ignore) (store : LoadResult)
    (scanDate : String) (rootReadable : Bool) (tree : List FSEntry) (depth : Nat)
    (reset : Bool) : Option SnapshotDoc :=
  let walked := get_filepaths_ancor (drive_path ++ "/" ++ project_path) ignore_list
    rootReadable tree depth
  let files := walked.1
  let fresh := scan_files os off drive_path project_path files
  let merged : Option Metadata :=
    if reset then some fresh
    else
      match store with
      | .absent => some fresh
      | .parseError => none
      | .ok old_data => some (update_metadata old_data.metadata fresh)
  merged.map fun metadata =>
    { scan := { date := scanDate
                path := drive_path ++ "/" ++ project_path
                files := files.length
                ignore := ignore_list }
      metadata := metadata }

/-- C5: during a scan, an absent stored snapshot is the normal first-scan
case — the scan succeeds and the written metadata is exactly the fresh scan —
while a malformed stored snapshot surfaces as an explicit failure: the scan
of that project aborts with no document written, instead of the malformed
file being treated as absent and overwritten. -/
theorem read_metadata_absent_vs_malformed (os : String → FsView) (off : Int)
    (drive_path project_path : String) (ignore_list : Ignore) (scanDate : String)
    (rootReadable : Bool) (tree : List FSEntry) (depth : Nat) :
    (read_metadata os off drive_path project_path ignore_list .absent scanDate
        rootReadable tree depth false).map (fun doc => doc.metadata) =
      some (scan_files os off drive_path project_path
        (get_filepaths_ancor (drive_path ++ "/" ++ project_path) ignore_list
          rootReadable tree depth).1) ∧
    read_metadata os off drive_path project_path ignore_list .parseError scanDate
        rootReadable tree depth false = none := by
  constructor <;> simp [read_metadata]

/-- Fresh-scan state for the C3 counterexample: `a.txt` exists with content
hash `"h1"` and modification time 2 s (in epoch microseconds). -/
def demoOs3 : String → FsView := fun p =>
  if p = "G:/proj/a.txt" then
    { existsCheck := true
      stat := some { read := .ok "h1", size := 3, attr := "A",
                     mtime := 2000000, ctime := 0, atime := 0 } }
  else { existsCheck := false, stat := none }

/-- The record stored for `a.txt` by an earlier scan: same content hash
`"h1"`, original modification time 1 s. -/
def oldRec3 : FileRecord :=
  { md5 := "h1", path := "", name := "a.txt", size := 3, attr := "A"
    modified := format_time 0 1000000, created := format_time 0 0
    access := format_time 0 0 }

/-- The record the fresh scan of `demoOs3` produces for `a.txt`. -/
def freshRec3 : FileRecord :=
  { md5 := "h1", path := "", name := "a.txt", size := 3, attr := "A"
    modified := format_time 0 2000000, created := format_time 0 0
    access := format_time 0 0 }

/-- The previously persisted snapshot document for the C3 counterexample. -/
def demoOld3 : SnapshotDoc :=
  { scan := { date := "old", path := "G:/proj", files := 1, ignore := ⟨none, none⟩ }
    metadata := [("a.txt", oldRec3)] }

/-- C3 counterexample: `main` invokes the scan as
`read_metadata(DRIVE, path, ignore_list, reset=True)` (src/main.py line 33),
and with `reset=True` the snapshot written for a project that already has a
persisted snapshot is the freshly scanned mapping alone: here the old
snapshot holds `a.txt` with the same content hash `"h1"`, reconciliation
would keep the old record (original timestamp), yet the written metadata is
the fresh record — refuting the claim that the written snapshot is never the
freshly scanned mapping alone. -/
theorem main_scan_reset_ignores_snapshot :
    (read_metadata demoOs3 0 "G:" "proj" ⟨none, none⟩ (.ok demoOld3) "now" true
        [FSEntry.file "a.txt"] 2 true).map (fun doc => doc.metadata) =
      some [("a.txt", freshRec3)] ∧
    oldRec3.md5 = freshRec3.md5 ∧
    freshRec3 ≠ oldRec3 ∧
    update_metadata demoOld3.metadata [("a.txt", freshRec3)] = [("a.txt", oldRec3)] := by
  refine ⟨by decide, by decide, by decide, by decide⟩

/-- C3 amended: `read_metadata` reconciles against the stored snapshot and
writes the merged mapping only when called with `reset=False`; with
`reset=True` — which is how `main` invokes every scan — the stored snapshot
is ignored (whatever its state) and the written metadata is the freshly
scanned mapping alone. -/
theorem read_metadata_reset_behavior (os : String → FsView) (off : Int)
    (drive_path project_path : String) (ignore_list : Ignore) (scanDate : String)
    (rootReadable : Bool) (tree : List FSEntry) (depth : Nat)
    (old : SnapshotDoc) (store : LoadResult) :
    (read_metadata os off drive_path project_path ignore_list (.ok old) scanDate
        rootReadable tree depth false).map (fun doc => doc.metadata) =
      some (update_metadata old.metadata
        (scan_files os off drive_path project_path
          (get_filepaths_ancor (drive_path ++ "/" ++ project_path) ignore_list
            rootReadable tree depth).1)) ∧
    (read_metadata os off drive_path project_path ignore_list store scanDate
        rootReadable tree depth true).map (fun doc => doc.metadata) =
      some (scan_files os off drive_path project_path
        (get_filepaths_ancor (drive_path ++ "/" ++ project_path) ignore_list
          rootReadable tree depth).1) := by
  constructor <;> simp [read_metadata]

/-- One step of `scan_files` (the body of its loop over the walked files). -/
def scan_step (os : String → FsView) (off : Int) (drive project_path : String)
    (metadata : Metadata) (file : String) : Metadata :=
  let file_path := drive ++ "/" ++ project_path ++ "/" ++ file
  match get_file_metadata os off file_path project_path with
  | (_, none) => metadata
  | (key, some data) => dictInsert metadata key data

theorem scan_files_eq_foldl (os : String → FsView) (off : Int)
    (drive project_path : String) (files : List String) :
    scan_files os off drive project_path files =
      files.foldl (scan_step os off drive project_path) [] := rfl

theorem dictInsert_length_le (d : Metadata) (k : String) (v : FileRecord) :
    (dictInsert d k v).length ≤ d.length + 1 := by
  unfold dictInsert
  split
  · simp
  · simp

theorem scan_step_length_le (os : String → FsView) (off : Int)
    (drive project_path : String) (metadata : Metadata) (file : String) :
    (scan_step os off drive project_path metadata file).length ≤ metadata.length + 1 := by
  simp only [scan_step]
  split
  · omega
  · apply dictInsert_length_le

/-- A file that is gone by fingerprint time contributes nothing to the
metadata. -/
theorem scan_step_missing (os : String → FsView) (off : Int)
    (drive project_path : String) (metadata : Metadata) (file : String)
    (hmiss : (os (drive ++ "/" ++ project_path ++ "/" ++ file)).stat = none) :
    scan_step os off drive project_path metadata file = metadata := by
  simp only [scan_step, get_file_metadata, hmiss]

theorem scan_foldl_length_le (os : String → FsView) (off : Int)
    (drive project_path : String) :
    ∀ (files : List String) (metadata : Metadata),
      (files.foldl (scan_step os off drive project_path) metadata).length ≤
        metadata.length + files.length := by
  intro files
  induction files with
  | nil => intro metadata; simp
  | cons f rest ih =>
    intro metadata
    have h1 := scan_step_length_le os off drive project_path metadata f
    have h2 := ih (scan_step os off drive project_path metadata f)
    simp only [List.foldl_cons, List.length_cons]
    omega

theorem scan_foldl_length_lt (os : String → FsView) (off : Int)
    (drive project_path : String) (f : String)
    (hmiss : (os (drive ++ "/" ++ project_path ++ "/" ++ f)).stat = none) :
    ∀ (files : List String) (metadata : Metadata), f ∈ files →
      (files.foldl (scan_step os off drive project_path) metadata).length <
        metadata.length + files.length := by
  intro files
  induction files with
  | nil => intro metadata h; cases h
  | cons g rest ih =>
    intro metadata hmem
    simp only [List.foldl_cons, List.length_cons]
    rcases List.mem_cons.mp hmem with heq | hrest
    · subst heq
      rw [scan_step_missing os off drive project_path metadata f hmiss]
      have := scan_foldl_length_le os off drive project_path rest metadata
      omega
    · have h1 := scan_step_length_le os off drive project_path metadata g
      have h2 := ih (scan_step os off drive project_path metadata g) hrest
      omega

/-- C10: when a walked file no longer exists at fingerprint time, it is
silently omitted from the scanned metadata (appending it to any file list
leaves the scan result unchanged), while the written snapshot's `scan.files`
count is the length of the walk's file list and therefore still includes it,
so the count strictly exceeds the number of metadata entries of the same
document. -/
theorem scan_count_exceeds_metadata (os : String → FsView) (off : Int)
    (drive_path project_path : String) (ignore_list : Ignore) (store : LoadResult)
    (scanDate : String) (rootReadable : Bool) (tree : List FSEntry) (depth : Nat)
    (reset : Bool) (doc : SnapshotDoc)
    (hdoc : read_metadata os off drive_path project_path ignore_list store scanDate
      rootReadable tree depth reset = some doc)
    (f : String)
    (hf : f ∈ (get_filepaths_ancor (drive_path ++ "/" ++ project_path) ignore_list
      rootReadable tree depth).1)
    (hmiss : (os (drive_path ++ "/" ++ project_path ++ "/" ++ f)).stat = none) :
    doc.scan.files = (get_filepaths_ancor (drive_path ++ "/" ++ project_path) ignore_list
      rootReadable tree depth).1.length ∧
    doc.metadata.length < doc.scan.files ∧
    (∀ files0 : List String,
      scan_files os off drive_path project_path (files0 ++ [f]) =
        scan_files os off drive_path project_path files0) := by
  have hfreshlt : (scan_files os off drive_path project_path
      (get_filepaths_ancor (drive_path ++ "/" ++ project_path) ignore_list
        rootReadable tree depth).1).length <
      (get_filepaths_ancor (drive_path ++ "/" ++ project_path) ignore_list
        rootReadable tree depth).1.length := by
    rw [scan_files_eq_foldl]
    have := scan_foldl_length_lt os off drive_path project_path f hmiss
      (get_filepaths_ancor (drive_path ++ "/" ++ project_path) ignore_list
        rootReadable tree depth).1 [] hf
    simpa using this
  have happend : ∀ files0 : List String,
      scan_files os off drive_path project_path (files0 ++ [f]) =
        scan_files os off drive_path project_path files0 := by
    intro files0
    rw [scan_files_eq_foldl, scan_files_eq_foldl, List.foldl_append, List.foldl_cons,
      scan_step_missing os off drive_path project_path _ f hmiss, List.foldl_nil]
  simp only [read_metadata] at hdoc
  rcases reset with _ | _
  · rcases store with _ | _ | old_data
    · simp only [Bool.false_eq_true, if_false, Option.map_some', Option.some.injEq] at hdoc
      rw [← hdoc]
      refine ⟨rfl, by simpa using hfreshlt, happend⟩
    · simp [Bool.false_eq_true] at hdoc
    · simp only [Bool.false_eq_true, if_false, Option.map_some', Option.some.injEq] at hdoc
      rw [← hdoc]
      refine ⟨rfl, ?_, happend⟩
      simpa [update_metadata] using hfreshlt
  · simp only [if_true, Option.map_some', Option.some.injEq] at hdoc
    rw [← hdoc]
    refine ⟨rfl, by simpa using hfreshlt, happend⟩

/-- Filesystem state for the C10 witness: `a.txt` is present; `gone.txt` is
enumerated by the walk but gone by fingerprint time. -/
def demoOs10 : String → FsView := fun p =>
  if p = "G:/proj/a.txt" then
    { existsCheck := true
      stat := some { read := .ok "h1", size := 3, attr := "A",
                     mtime := 0, ctime := 0, atime := 0 } }
  else { existsCheck := false, stat := none }

/-- The snapshot document the scan of `demoOs10` writes. -/
def demoDoc10 : SnapshotDoc :=
  (read_metadata demoOs10 0 "G:" "proj" ⟨none, none⟩ .absent "d" true
    [FSEntry.file "a.txt", FSEntry.file "gone.txt"] 2 true).getD
    ⟨⟨"", "", 0, ⟨none, none⟩⟩, []⟩

/-- Witness for C10: in the concrete scan with one vanished file, the written
document counts 2 scanned files but holds a single metadata entry. -/
theorem scan_count_exceeds_metadata_witness :
    demoDoc10.scan.files = 2 ∧ demoDoc10.metadata.length < demoDoc10.scan.files := by
  have h := scan_count_exceeds_metadata demoOs10 0 "G:" "proj" ⟨none, none⟩ .absent "d"
    true [FSEntry.file "a.txt", FSEntry.file "gone.txt"] 2 true demoDoc10 (by rfl)
    "gone.txt" (by decide) (by decide)
  exact ⟨by decide, h.2.1⟩

/-! ## The restorer (`write_metadata`)

Source loop body (`src/helper/timestamps.py`, lines 69-95):
```
md5      = values["md5"]
modified = values["modified"]
epoche   = scan_time(modified)
fullpath = drive_path / project_path / key
if os.path.exists(fullpath):
    _, metadata = get_file_metadata(fullpath, key)
    if metadata is None:
        Trace.error(...); continue
    if metadata["md5"] == md5:
        if modified != metadata["modified"]:
            os.utime(fullpath, (-1, epoche))
            count += 1
        else: ...
    else: ...
else: ...
```
`os.utime(path, (atime, mtime))` is documented to set both the access and the
modification time of the file to the given values; Python documents no
sentinel for it, so the model sets both (the source's `-1` in the atime slot
is the concrete instant 1 second before the epoch, `-1000000` in the
microsecond scale of the model). -/

/-- The five per-entry paths of the restore loop: target missing, stat race
(`metadata is None`), hash mismatch, modification date already correct,
modification date rewritten. -/
inductive WriteOutcome where
  | notFound
  | statFail
  | hashDiff
  | upToDate
  | updated
deriving DecidableEq, Repr

/-- Model of `os.utime(path, (atime, mtime))` per its documented semantics:
both times of the file at `path` are set (microsecond scale). -/
def os_utime (os : String → FsView) (path : String) (atime mtime : Int) :
    String → FsView :=
  fun p =>
    if p = path then
      { existsCheck := (os p).existsCheck
        stat := (os p).stat.map fun st => { st with atime := atime, mtime := mtime } }
    else os p

/-- Model of one iteration of the `write_metadata` loop over a snapshot entry
`(key, values)`: the updated filesystem, the updated restored count, and
which of the five paths was taken. -/
def write_entry (os : String → FsView) (off : Int) (drive_path project_path : String)
    (count : Nat) (key : String) (values : FileRecord) :
    (String → FsView) × Nat × WriteOutcome :=
  let md5 := values.md5
  let modified := values.modified
  let epoche := scan_time modified
  let fullpath := drive_path ++ "/" ++ project_path ++ "/" ++ key
  if (os fullpath).existsCheck then
    match (get_file_metadata os off fullpath key).2 with
    | none => (os, count, .statFail)
    | some metadata =>
      if metadata.md5 = md5 then
        if modified ≠ metadata.modified then
          (os_utime os fullpath (-1 * 1000000) epoche, count + 1, .updated)
        else (os, count, .upToDate)
      else (os, count, .hashDiff)
  else (os, count, .notFound)

/-- Model of `write_metadata`: fold the per-entry step over the loaded
snapshot's metadata, starting from count 0 (`data is None` — no loadable
snapshot — returns failure). -/
def write_metadata (os : String → FsView) (off : Int)
    (drive_path project_path : String) (store : LoadResult) :
    Option ((String → FsView) × Nat) :=
  match store with
  | .ok data =>
    some (data.metadata.foldl
      (fun acc kv =>
        let r := write_entry acc.1 off drive_path project_path acc.2 kv.1 kv.2
        (r.1, r.2.1))
      (os, 0))
  | _ => none

/-- C2: for a snapshot entry whose target file exists and is readable
(the stat inside `get_file_metadata` succeeds), the restore step
(i) leaves the file's modification time unchanged and does not increment the
restored count when the current content hash differs from the stored one,
(ii) sets the modification time to the stored (parsed) value and increments
the count by exactly one when the hashes match and the current formatted
modification time differs from the stored one, and
(iii) changes nothing when both the hash and the formatted modification time
agree. -/
theorem write_entry_restore_cases (os : String → FsView) (off : Int)
    (drive_path project_path : String) (count : Nat) (key : String)
    (values : FileRecord) (st : StatData)
    (hex : (os (drive_path ++ "/" ++ project_path ++ "/" ++ key)).existsCheck = true)
    (hst : (os (drive_path ++ "/" ++ project_path ++ "/" ++ key)).stat = some st) :
    (calculate_md5 st.read ≠ values.md5 →
      write_entry os off drive_path project_path count key values =
        (os, count, .hashDiff)) ∧
    (calculate_md5 st.read = values.md5 →
      values.modified ≠ format_time off st.mtime →
      ((write_entry os off drive_path project_path count key values).1
          (drive_path ++ "/" ++ project_path ++ "/" ++ key)).stat.map (fun s => s.mtime) =
        some (scan_time values.modified) ∧
      (write_entry os off drive_path project_path count key values).2.1 = count + 1) ∧
    (calculate_md5 st.read = values.md5 →
      values.modified = format_time off st.mtime →
      write_entry os off drive_path project_path count key values =
        (os, count, .upToDate)) := by
  refine ⟨fun hneq => ?_, fun heq hmod => ?_, fun heq hmod => ?_⟩
  · simp [write_entry, get_file_metadata, hex, hst]
    intro h
    exact (hneq h).elim
  · have hmod' : values.modified ≠ format_time off st.mtime := hmod
    simp [write_entry, get_file_metadata, hex, hst, heq, os_utime, hmod']
  · simp [write_entry, get_file_metadata, hex, hst, heq, hmod]

/-- Witness for C2, exercising case (ii): the stored entry for `a.txt` has the
current content hash `"h1"` but an older modification time (1 s); the file on
disk has modification time 2 s; the restore step rewrites the file's
modification time to the stored 1 s and reports one restored entry. -/
theorem write_entry_restore_cases_witness :
    ((write_entry demoOs3 0 "G:" "proj" 0 "a.txt" oldRec3).1
        "G:/proj/a.txt").stat.map (fun s => s.mtime) = some 1000000 ∧
    (write_entry demoOs3 0 "G:" "proj" 0 "a.txt" oldRec3).2.1 = 0 + 1 := by
  have h := (write_entry_restore_cases demoOs3 0 "G:" "proj" 0 "a.txt" oldRec3
    { read := .ok "h1", size := 3, attr := "A", mtime := 2000000, ctime := 0, atime := 0 }
    (by decide) (by decide)).2.1 (by decide) (by decide)
  refine ⟨?_, h.2⟩
  have := h.1
  rwa [show scan_time oldRec3.modified = 1000000 by decide] at this

/-- Snapshot entry for the C4 scenario: an ordinary stored record whose
content hash is a real 32-hex digest. -/
def demoRec4 : FileRecord :=
  { md5 := "d41d8cd98f00b204e9800998ecf8427e", path := "", name := "a.txt", size := 3
    attr := "A", modified := format_time 0 1000000, created := format_time 0 0
    access := format_time 0 0 }

/-- Filesystem state for the C4 scenario: `a.txt` exists and stats fine, but
reading its bytes fails with an `OSError` (e.g. a sharing violation). -/
def demoOs4 : String → FsView := fun p =>
  if p = "G:/proj/a.txt" then
    { existsCheck := true
      stat := some { read := .ioError, size := 3, attr := "A",
                     mtime := 2000000, ctime := 0, atime := 0 } }
  else { existsCheck := false, stat := none }

/-- C4 counterexample: on an I/O fault while reading the file's bytes,
`calculate_md5` returns the empty string — an ordinary digest-typed value
embedded in an ordinary record, not a distinguishable `ReadError` variant —
and the restore step then does enter the hash comparison, classifying the
entry as a hash mismatch (`hashDiff`) rather than taking the
skip-before-compare path (`statFail`).  This refutes the claim that the
restorer skips such an entry without entering the hash-comparison branch. -/
theorem calculate_md5_ioError_counterexample :
    calculate_md5 ReadOutcome.ioError = "" ∧
    ((get_file_metadata demoOs4 0 "G:/proj/a.txt" "a.txt").2.map fun r => r.md5) =
      some "" ∧
    (write_entry demoOs4 0 "G:" "proj" 0 "a.txt" demoRec4).2.2 =
      WriteOutcome.hashDiff ∧
    WriteOutcome.hashDiff ≠ WriteOutcome.statFail := by
  refine ⟨by decide, by decide, by decide, by decide⟩

/-- C4 amended: when reading the file's bytes fails with an I/O error,
`calculate_md5` logs and returns the empty string, which `get_file_metadata`
embeds as the `md5` field of an ordinary record; the restorer then enters the
hash comparison, and since a stored hash is a nonempty hex digest the
comparison fails, so the entry is skipped as a hash mismatch — the file and
the restored count are unchanged (the net effect on disk is the same as a
skip, but through the mismatch branch, not a distinguishable error result). -/
theorem write_entry_ioError_as_mismatch (os : String → FsView) (off : Int)
    (drive_path project_path : String) (count : Nat) (key : String)
    (values : FileRecord) (st : StatData)
    (hex : (os (drive_path ++ "/" ++ project_path ++ "/" ++ key)).existsCheck = true)
    (hst : (os (drive_path ++ "/" ++ project_path ++ "/" ++ key)).stat = some st)
    (hread : st.read = .ioError) (hmd5 : values.md5 ≠ "") :
    ((get_file_metadata os off (drive_path ++ "/" ++ project_path ++ "/" ++ key)
        key).2.map fun r => r.md5) = some "" ∧
    write_entry os off drive_path project_path count key values =
      (os, count, .hashDiff) := by
  constructor
  · simp [get_file_metadata, hst, calculate_md5, hread]
  · have hneq : calculate_md5 st.read ≠ values.md5 := by
      rw [hread]
      simp only [calculate_md5]
      exact fun h => hmd5 h.symm
    exact (write_entry_restore_cases os off drive_path project_path count key values st
      hex hst).1 hneq

/-- Witness for the amended C4: in the concrete `demoOs4` state, the restore
step reports the empty-digest record and takes the hash-mismatch path with
filesystem and count untouched. -/
theorem write_entry_ioError_as_mismatch_witness :
    ((get_file_metadata demoOs4 0 "G:/proj/a.txt" "a.txt").2.map fun r => r.md5) =
      some "" ∧
    write_entry demoOs4 0 "G:" "proj" 0 "a.txt" demoRec4 =
      (demoOs4, 0, .hashDiff) :=
  write_entry_ioError_as_mismatch demoOs4 0 "G:" "proj" 0 "a.txt" demoRec4
    { read := .ioError, size := 3, attr := "A", mtime := 2000000, ctime := 0, atime := 0 }
    (by decide) (by decide) (by decide) (by decide)

/-- Filesystem state for the C6 theorem: `a.txt` has content hash `"h1"`,
modification time 2 s, and access time 5 s. -/
def demoOs6 : String → FsView := fun p =>
  if p = "G:/proj/a.txt" then
    { existsCheck := true
      stat := some { read := .ok "h1", size := 3, attr := "A",
                     mtime := 2000000, ctime := 0, atime := 5000000 } }
  else { existsCheck := false, stat := none }

/-- C6, evaluated at the failing input: when the restore step rewrites the
modification time (hash match, stored modification time 1 s differs from the
current 2 s), the call `os.utime(fullpath, (-1, epoche))` also sets the
file's access time to the concrete instant −1 s (−1000000 µs in the model) —
`os.utime` has no documented "do not change" sentinel — so the access time,
previously 5 s, is not left untouched as the claim states. -/
theorem write_entry_clobbers_access_time :
    ((demoOs6 "G:/proj/a.txt").stat.map fun s => s.atime) = some 5000000 ∧
    (write_entry demoOs6 0 "G:" "proj" 0 "a.txt" oldRec3).2.2 = WriteOutcome.updated ∧
    (((write_entry demoOs6 0 "G:" "proj" 0 "a.txt" oldRec3).1
        "G:/proj/a.txt").stat.map fun s => s.atime) = some (-1 * 1000000) ∧
    (-1 * 1000000 : Int) ≠ 5000000 := by
  refine ⟨by decide, by decide, by decide, by decide⟩

/-- A baseline record for the C1 witness mappings. -/
def recA_old : FileRecord :=
  { md5 := "h1", path := "", name := "A", size := 1, attr := ""
    modified := format_time 0 0, created := format_time 0 0, access := format_time 0 0 }

/-- Freshly scanned record for key `A`: same content hash, newer metadata. -/
def recA_new : FileRecord := { recA_old with modified := format_time 0 2000000 }

/-- Freshly scanned record for the new key `B`. -/
def recB_new : FileRecord := { recA_old with md5 := "h2", name := "B" }

/-- Old record for key `C` (absent from the fresh scan). -/
def recC_old : FileRecord := { recA_old with md5 := "h3", name := "C" }

/-- Old record for key `D` (content changed since). -/
def recD_old : FileRecord := { recA_old with md5 := "h4", name := "D" }

/-- Freshly scanned record for key `D` with the changed content hash. -/
def recD_new : FileRecord := { recA_old with md5 := "h5", name := "D" }

/-- Witness for C1, covering all four cases on concrete mappings:
unchanged hash keeps the old record, a new key and a changed hash take the
new record, and a key missing from the new mapping is dropped. -/
theorem update_metadata_reconciles_witness :
    dictLookup "A" (update_metadata
      [("A", recA_old), ("C", recC_old), ("D", recD_old)]
      [("A", recA_new), ("B", recB_new), ("D", recD_new)]) = some recA_old ∧
    dictLookup "B" (update_metadata
      [("A", recA_old), ("C", recC_old), ("D", recD_old)]
      [("A", recA_new), ("B", recB_new), ("D", recD_new)]) = some recB_new ∧
    dictLookup "D" (update_metadata
      [("A", recA_old), ("C", recC_old), ("D", recD_old)]
      [("A", recA_new), ("B", recB_new), ("D", recD_new)]) = some recD_new ∧
    dictLookup "C" (update_metadata
      [("A", recA_old), ("C", recC_old), ("D", recD_old)]
      [("A", recA_new), ("B", recB_new), ("D", recD_new)]) = none := by
  refine ⟨?_, ?_, ?_, ?_⟩
  · exact ((update_metadata_reconciles
      [("A", recA_old), ("C", recC_old), ("D", recD_old)]
      [("A", recA_new), ("B", recB_new), ("D", recD_new)] "A").1 recA_new
      (by decide)).1 recA_old (by decide) (by decide)
  · exact ((update_metadata_reconciles
      [("A", recA_old), ("C", recC_old), ("D", recD_old)]
      [("A", recA_new), ("B", recB_new), ("D", recD_new)] "B").1 recB_new
      (by decide)).2.1 (by decide)
  · exact ((update_metadata_reconciles
      [("A", recA_old), ("C", recC_old), ("D", recD_old)]
      [("A", recA_new), ("B", recB_new), ("D", recD_new)] "D").1 recD_new
      (by decide)).2.2 recD_old (by decide) (by decide)
  · exact (update_metadata_reconciles
      [("A", recA_old), ("C", recC_old), ("D", recD_old)]
      [("A", recA_new), ("B", recB_new), ("D", recD_new)] "C").2 (by decide)
